import Mathlib

/-!
Verification of the grid-trading engine (backend/app/bot/strategy.py and
backend/app/bot/engine.py) against its natural-language specification.

Prices and monetary amounts are modelled as exact rationals (the source uses
Python floats; the spec's own open question 2 treats them as idealised reals).
Python's round(x, 8) is modelled exactly as round-half-to-even on rationals.
Stateful engine code is modelled by explicit state passing over a record of the
database rows the engine reads and writes; adapter calls are modelled by
oracles (an order-id source for placements that can also signal an exception,
and a cancel oracle where false means the adapter call raised).
-/

/-- Round-half-to-even of a rational to an integer (the tie-breaking rule of
Python's builtin round). -/
def rhe (q : ℚ) : ℤ :=
  if q - ⌊q⌋ < 1/2 then ⌊q⌋
  else if q - ⌊q⌋ > 1/2 then ⌊q⌋ + 1
  else if ⌊q⌋ % 2 = 0 then ⌊q⌋ else ⌊q⌋ + 1

/-- Python round(x, 8): round half to even at the 8th decimal place. -/
def round8 (q : ℚ) : ℚ :=
  (rhe (q * 10^8) : ℚ) / 10^8

/-- Grid strategy configuration, from GridStrategy.__init__ in strategy.py.
The last three fields are read by the engine via getattr with the given
defaults (engine.py sync_orders); update_config stores them on the strategy. -/
structure GridStrategy where
  grid_step_pct : ℚ := 33/10000
  staging_band_pct : ℚ := 5/100
  max_orders : ℕ := 490
  buffer_enabled : Bool := false
  buffer_pct : ℚ := 0
  custom_profit_pct : ℚ := 1/100
  monthly_profit_target_usd : ℚ := 1000
  profit_mode : String := "STEP"
  budget : ℚ := 1000
  sizing_mode : String := "BUDGET_SPLIT"
  fixed_usd_per_trade : ℚ := 10
  capital_pct_per_trade : ℚ := 1
deriving Repr, DecidableEq

/-- GridStrategy.calculate_new_anchor (strategy.py lines 31-43): add-only
rebase; absent anchor is initialised to the current price, otherwise the
anchor only moves up. -/
def GridStrategy.calculate_new_anchor (current_price : ℚ) (old_anchor : Option ℚ) : ℚ :=
  match old_anchor with
  | none => current_price
  | some old => if current_price > old then current_price else old

/-- Grid top used by calculate_buy_levels (strategy.py lines 52-57): the
anchor, discounted by buffer_pct when the buffer is enabled and positive. -/
def GridStrategy.gridTop (s : GridStrategy) (anchor_high : ℚ) : ℚ :=
  if s.buffer_enabled ∧ s.buffer_pct > 0 then anchor_high * (1 - s.buffer_pct)
  else anchor_high

/-- Loop body of GridStrategy.calculate_buy_levels (strategy.py lines 66-77),
with an explicit fuel bounding the number of iterations of the Python while
loop (the loop itself has no a-priori structural bound; every property proved
below holds for every fuel, hence for the loop whenever it terminates).
Per iteration: if level_price > lower_bound, append round8 level_price when
level_price < current_price, step the level down by the grid step, and break
once the accumulated list is longer than max_orders. -/
def GridStrategy.buyLevelsAux (s : GridStrategy) (lower_bound current_price : ℚ) :
    ℕ → ℚ → List ℚ → List ℚ
  | 0, _, acc => acc
  | fuel+1, level_price, acc =>
    if level_price > lower_bound then
      let acc' := if level_price < current_price then acc ++ [round8 level_price] else acc
      if acc'.length > s.max_orders then acc'
      else s.buyLevelsAux lower_bound current_price fuel (level_price * (1 - s.grid_step_pct)) acc'
    else acc

/-- GridStrategy.calculate_buy_levels (strategy.py lines 45-79): grid levels
below the current price, generated downwards from one step below the grid
top while above the staging-band lower bound. -/
def GridStrategy.calculate_buy_levels (s : GridStrategy) (anchor_high current_price : ℚ)
    (fuel : ℕ) : List ℚ :=
  s.buyLevelsAux (current_price * (1 - s.staging_band_pct)) current_price fuel
    ((s.gridTop anchor_high) * (1 - s.grid_step_pct)) []

/-- GridStrategy.get_sell_price (strategy.py lines 81-85): the sell price is
always one grid step above the buy price, rounded to 8 decimals; the
profit_mode and custom_profit_pct fields are not consulted. -/
def GridStrategy.get_sell_price (s : GridStrategy) (buy_price : ℚ) : ℚ :=
  round8 (buy_price * (1 + s.grid_step_pct))

/-- GridStrategy.should_prune (strategy.py lines 87-92): an order is pruned
when its price is below the staging band. -/
def GridStrategy.should_prune (s : GridStrategy) (order_price current_price : ℚ) : Bool :=
  decide (order_price < current_price * (1 - s.staging_band_pct))

/-- Modelled from the spec: GridStrategy.get_effective_budget is called from
sync_orders (engine.py line 624) but its definition is missing from the
sources. The spec section 4.1 defines effective_budget(current_month_profit)
as SMART_REINVEST and profit at or above target giving
budget + (profit - target), and budget otherwise. -/
def GridStrategy.get_effective_budget (s : GridStrategy) (current_month_profit : ℚ) : ℚ :=
  if s.profit_mode = "SMART_REINVEST" ∧ current_month_profit ≥ s.monthly_profit_target_usd
  then s.budget + (current_month_profit - s.monthly_profit_target_usd)
  else s.budget

/-- Anchor replay: folding calculate_new_anchor over a price sequence starting
from an absent anchor (the per-tick rebase of engine.py lines 362-374,
iterated). -/
def replayAnchor (ps : List ℚ) : Option ℚ :=
  ps.foldl (fun old c => some (GridStrategy.calculate_new_anchor c old)) none

/-- Row of the orders table (db/models.py, class Order; created_at and
client_tag are never read by the engine logic and are omitted). -/
structure OrderRow where
  id : String
  market_id : String
  side : String
  price : ℚ
  size : ℚ
  status : String
deriving Repr, DecidableEq

/-- Row of the fills table (db/models.py, class Fill; the uuid-generated row
id and the wall-clock timestamp are not read anywhere and are omitted). -/
structure FillRow where
  order_id : String
  market_id : String
  side : String
  price : ℚ
  size : ℚ
  fee : ℚ
deriving Repr, DecidableEq

/-- Row of the lots table (db/models.py, class Lot; the autoincrement id,
buy_time and exclude_from_pruning are not read by the engine and omitted). -/
structure LotRow where
  market_id : String
  buy_order_id : String
  buy_price : ℚ
  buy_size : ℚ
  buy_cost : ℚ
  sell_order_id : Option String
  sell_price : Option ℚ
  status : String
  realized_pnl : ℚ
deriving Repr, DecidableEq

/-- Row of the markets table (db/models.py, class Market; only id and enabled
are read by the engine). -/
structure MarketRow where
  id : String
  enabled : Bool
deriving Repr, DecidableEq

/-- Value of the BotState row with key "profit_tracker" (engine.py
check_monthly_reset / add_profit). -/
structure ProfitTracker where
  current_month_profit_usd : ℚ
  last_profit_reset_month : ℤ
deriving Repr, DecidableEq

/-- Persistent state read and written by the engine: the relational tables,
with the BotState key-value table split into its two well-known key families
(per-market anchors, and the profit tracker). -/
structure DB where
  markets : List MarketRow
  orders : List OrderRow
  fills : List FillRow
  lots : List LotRow
  anchors : List (String × ℚ)
  profit_tracker : Option ProfitTracker
deriving Repr, DecidableEq

/-- Adapter oracle. place gives the exchange order id returned by the n-th
place_limit_order call (none models the call raising an exception); cancel
tells whether cancel_order for a given id returns without raising (false
models an exception; the boolean return value of a successful cancel is
ignored by the engine). -/
structure Adapter where
  place : ℕ → Option String
  cancel : String → Bool

/-- Python dict insert/update into the in-memory order cache keyed by id. -/
def cacheInsert (c : List OrderRow) (e : OrderRow) : List OrderRow :=
  if c.any (fun x => x.id = e.id) then c.map (fun x => if x.id = e.id then e else x)
  else c ++ [e]

/-- Python dict deletion from the in-memory order cache. -/
def cacheErase (c : List OrderRow) (oid : String) : List OrderRow :=
  c.filter (fun x => x.id ≠ oid)

/-- BotEngine.check_monthly_reset (engine.py lines 102-125): create the
profit tracker when absent; zero it when the calendar month changed. -/
def checkMonthlyReset (month : ℤ) (db : DB) : DB :=
  match db.profit_tracker with
  | none => { db with profit_tracker := some ⟨0, month⟩ }
  | some t =>
    if month ≠ t.last_profit_reset_month then { db with profit_tracker := some ⟨0, month⟩ }
    else db

/-- BotEngine.add_profit (engine.py lines 127-138): read the tracker, add the
amount, write back; a missing tracker row makes the call a no-op. -/
def addProfit (db : DB) (amount_usd : ℚ) : DB :=
  match db.profit_tracker with
  | none => db
  | some t =>
    let t' : ProfitTracker := ⟨t.current_month_profit_usd + amount_usd, t.last_profit_reset_month⟩
    { db with profit_tracker := some t' }

/-- BotEngine.get_current_monthly_profit (engine.py lines 140-146). -/
def getCurrentMonthlyProfit (db : DB) : ℚ :=
  (db.profit_tracker.map (fun t => t.current_month_profit_usd)).getD 0

/-- BotEngine.stop_and_cancel_all (engine.py lines 148-178): in one
transaction, set enabled:=false on every market, then attempt an adapter
cancel for every OPEN order, marking it CANCELED only when the adapter call
did not raise. Returns the new state and the ids of the attempted cancels. -/
def stopAndCancelAll (a : Adapter) (db : DB) : DB × List String :=
  let cancelRequests := (db.orders.filter (fun o => o.status = "OPEN")).map (fun o => o.id)
  let orders' := db.orders.map (fun o =>
    if o.status = "OPEN" ∧ a.cancel o.id then { o with status := "CANCELED" } else o)
  let markets' := db.markets.map (fun m => { m with enabled := false })
  (⟨markets', orders', db.fills, db.lots, db.anchors, db.profit_tracker⟩, cancelRequests)

/-- PaperWrapper.check_fills (paper.py lines 80-141) on the order list the
engine passes in (its cache entries for the market with status OPEN): one
fill per OPEN order of the market the current price has crossed; fill price
is the limit price and fee is 0. -/
def checkFills (market_id : String) (current_price : ℚ) (orders : List OrderRow) :
    List FillRow :=
  (orders.filter (fun o => o.status = "OPEN" ∧ o.market_id = market_id ∧
      ((o.side = "BUY" ∧ current_price ≤ o.price) ∨
       (o.side = "SELL" ∧ o.price ≤ current_price)))).map
    (fun o => ⟨o.id, market_id, o.side, o.price, o.size, 0⟩)

/-- Close the first lot whose sell_order_id matches (the scalar_one_or_none
lookup plus in-place mutation of engine.py lines 504-514; the engine assumes
at most one such lot). -/
def closeFirstLot (sid : String) (profit : ℚ) : List LotRow → List LotRow
  | [] => []
  | l :: ls =>
    if l.sell_order_id = some sid then
      { l with status := "CLOSED", realized_pnl := profit } :: ls
    else l :: closeFirstLot sid profit ls

/-- Loop body of BotEngine.process_fills for one fill (engine.py lines
432-522). State is (db, cache, next adapter placement index). The fill row is
appended and the order marked FILLED; a BUY fill then tries to place the exit
SELL (success inserts the SELL order and an OPEN lot; an adapter exception
leaves both uncreated); a SELL fill closes its lot with
realized_pnl = price*size - buy_cost and records the profit, falling back to
an estimate when no lot matches. -/
def applyFill (s : GridStrategy) (a : Adapter) (st : DB × List OrderRow × ℕ)
    (f : FillRow) : DB × List OrderRow × ℕ :=
  let db := st.1
  let cache1 := cacheErase st.2.1 f.order_id
  let n := st.2.2
  let db2 : DB := { db with
    fills := db.fills ++ [f],
    orders := db.orders.map (fun o => if o.id = f.order_id then { o with status := "FILLED" } else o) }
  if f.side = "BUY" then
    let sell_price := s.get_sell_price f.price
    match a.place n with
    | some sid =>
      let sellOrder : OrderRow := ⟨sid, f.market_id, "SELL", sell_price, f.size, "OPEN"⟩
      let lot : LotRow :=
        ⟨f.market_id, f.order_id, f.price, f.size, f.price * f.size, some sid, some sell_price, "OPEN", 0⟩
      ({ db2 with orders := db2.orders ++ [sellOrder], lots := db2.lots ++ [lot] }, cache1, n + 1)
    | none => (db2, cache1, n + 1)
  else if f.side = "SELL" then
    match db2.lots.find? (fun l => l.sell_order_id = some f.order_id) with
    | some lot =>
      let profit := f.price * f.size - lot.buy_cost
      (addProfit { db2 with lots := closeFirstLot f.order_id profit db2.lots } profit, cache1, n)
    | none =>
      let step := s.grid_step_pct
      (addProfit db2 (f.size * (f.price / (1 + step)) * step), cache1, n)
  else (db2, cache1, n)

/-- BotEngine.process_fills (engine.py lines 394-525) on the paper path:
detect fills against the cached OPEN orders of the market, then apply them in
order. -/
def processFills (s : GridStrategy) (a : Adapter) (db : DB) (cache : List OrderRow)
    (market_id : String) (current_price : ℚ) (n : ℕ) : DB × List OrderRow × ℕ :=
  let limit_orders := cache.filter (fun o => o.market_id = market_id ∧ o.status = "OPEN")
  let new_fills := checkFills market_id current_price limit_orders
  new_fills.foldl (applyFill s a) (db, cache, n)

/-- Index of the first desired level within relative tolerance of a price
(the inner matching loops of sync_orders, engine.py lines 576-580 and
604-608). -/
def matchIndex (desired : List ℚ) (tol p : ℚ) : Option ℕ :=
  desired.findIdx? (fun x => decide (|p - x| / x < tol))

/-- Per-placement size computation of sync_orders (engine.py lines 616-664):
mode-dependent raw size from the effective budget, then rounded to 8 decimals
and clamped below by the minimum size 1e-5. -/
def computeSize (s : GridStrategy) (current_profit price : ℚ) : ℚ :=
  let effective_budget := s.get_effective_budget current_profit
  let raw :=
    if s.sizing_mode = "BUDGET_SPLIT" then effective_budget / ((max s.max_orders 1 : ℕ) : ℚ) / price
    else if s.sizing_mode = "FIXED_USD" then s.fixed_usd_per_trade / price
    else if s.sizing_mode = "CAPITAL_PCT" then effective_budget * (s.capital_pct_per_trade / 100) / price
    else 1/10000
  max (round8 raw) (1/100000)

/-- Result of one sync_orders (or process_market) invocation: the new
persistent state, the new in-memory cache, the successfully placed orders,
the ids for which an adapter cancel was attempted, the ids actually marked
CANCELED, and the next adapter placement index. -/
structure SyncResult where
  db : DB
  cache : List OrderRow
  placed : List OrderRow
  cancelRequests : List String
  canceledIds : List String
  nextPlaceIdx : ℕ
deriving Repr, DecidableEq

/-- BotEngine.sync_orders (engine.py lines 527-691). Desired levels are
computed from the strategy; the cache is refreshed from all OPEN orders of
the market; each OPEN BUY order either covers the first desired level within
tolerance (when such a level exists and the order is inside the staging band)
or gets an adapter cancel attempt and, when the adapter call did not raise,
is marked CANCELED and evicted from the cache; OPEN lots cover the first
level within tolerance of their buy price; finally one BUY order is placed at
every uncovered level with the computed size, successful placements being
appended to storage and cache. The per-iteration accumulations of the source
loops are expressed with filter/map combinators, which agree with the
sequential loops because no loop iteration reads state written by an earlier
iteration (the covered set is only read after both loops, and each loop
iteration touches a distinct order row). The monthly profit is read per
placement in the source; no placement writes it, so it is read once here. -/
def syncTol (s : GridStrategy) : ℚ :=
  (if s.grid_step_pct ≤ 0 then 1/100 else s.grid_step_pct) * (2/10)

/-- Keep-or-prune predicate of the sync_orders order loop (engine.py lines
574-601): an order is kept iff it matches some desired level within tolerance
and is inside the staging band. -/
def keepPrice (s : GridStrategy) (desired : List ℚ) (current_price p : ℚ) : Bool :=
  (matchIndex desired (syncTol s) p).isSome && !(s.should_prune p current_price)

/-- OPEN BUY orders of the market (engine.py line 536). -/
def openBuys (db : DB) (market_id : String) : List OrderRow :=
  db.orders.filter (fun o => o.market_id = market_id ∧ o.status = "OPEN" ∧ o.side = "BUY")

/-- Desired-level indices covered by kept OPEN BUY orders and by OPEN lots
(engine.py lines 570-608). -/
def syncCovered (s : GridStrategy) (db : DB) (market_id : String) (desired : List ℚ)
    (current_price : ℚ) : List ℕ :=
  (((openBuys db market_id).filter (fun o => keepPrice s desired current_price o.price)).filterMap
      (fun o => matchIndex desired (syncTol s) o.price)) ++
    ((db.lots.filter (fun l => l.market_id = market_id ∧ l.status = "OPEN")).filterMap
      (fun l => matchIndex desired (syncTol s) l.buy_price))

/-- The enumerated desired levels that are not covered and hence get a
placement attempt (the loop over enumerate(desired) with covered indices
skipped, engine.py lines 611-613). -/
def syncToPlace (s : GridStrategy) (db : DB) (market_id : String) (desired : List ℚ)
    (current_price : ℚ) : List (ℕ × ℚ) :=
  desired.enum.filter
    (fun ip => ip.1 ∉ syncCovered s db market_id desired current_price)

def syncOrders (s : GridStrategy) (a : Adapter) (db : DB) (cache : List OrderRow)
    (market_id : String) (anchor_high current_price : ℚ) (fuel : ℕ) (n : ℕ) : SyncResult :=
  let desired := s.calculate_buy_levels anchor_high current_price fuel
  let allOpen := db.orders.filter (fun o => o.market_id = market_id ∧ o.status = "OPEN")
  let cache1 := allOpen.foldl cacheInsert cache
  let cancelRequests := ((openBuys db market_id).filter
    (fun o => !(keepPrice s desired current_price o.price))).map (fun o => o.id)
  let canceledIds := ((openBuys db market_id).filter
    (fun o => !(keepPrice s desired current_price o.price) && a.cancel o.id)).map (fun o => o.id)
  let orders1 := db.orders.map
    (fun o => if o.id ∈ canceledIds then { o with status := "CANCELED" } else o)
  let cache2 := cache1.filter (fun e => e.id ∉ canceledIds)
  let profit := getCurrentMonthlyProfit db
  let toPlace := syncToPlace s db market_id desired current_price
  let placedOrders := toPlace.enum.filterMap (fun kip =>
    (a.place (n + kip.1)).map (fun oid =>
      OrderRow.mk oid market_id "BUY" kip.2.2 (computeSize s profit kip.2.2) "OPEN"))
  { db := { db with orders := orders1 ++ placedOrders },
    cache := placedOrders.foldl cacheInsert cache2,
    placed := placedOrders,
    cancelRequests := cancelRequests,
    canceledIds := canceledIds,
    nextPlaceIdx := n + toPlace.length }

/-- Anchor upsert of process_market (engine.py lines 366-374). -/
def setAnchor (db : DB) (market_id : String) (v : ℚ) : DB :=
  if db.anchors.any (fun kv => kv.1 = market_id) then
    { db with anchors := db.anchors.map (fun kv => if kv.1 = market_id then (kv.1, v) else kv) }
  else { db with anchors := db.anchors ++ [(market_id, v)] }

/-- BotEngine.process_market (engine.py lines 338-392) for one market, with
the ticker price passed in: monthly reset, the zero-price guard, fill
processing, anchor rebase with persistence on change, and order sync. The
catch-all exception handler of the source corresponds to this model being a
total function. -/
def processMarket (s : GridStrategy) (a : Adapter) (month : ℤ) (db : DB)
    (cache : List OrderRow) (market_id : String) (current_price : ℚ) (fuel : ℕ)
    (n : ℕ) : SyncResult :=
  let db1 := checkMonthlyReset month db
  if current_price ≤ 0 then
    { db := db1, cache := cache, placed := [], cancelRequests := [], canceledIds := [],
      nextPlaceIdx := n }
  else
    let pf := processFills s a db1 cache market_id current_price n
    let db2 := pf.1
    let old_anchor := (db2.anchors.find? (fun kv => kv.1 = market_id)).map (fun kv => kv.2)
    let new_anchor := GridStrategy.calculate_new_anchor current_price old_anchor
    let db3 :=
      match old_anchor with
      | none => setAnchor db2 market_id new_anchor
      | some o => if new_anchor ≠ o then setAnchor db2 market_id new_anchor else db2
    syncOrders s a db3 pf.2.1 market_id new_anchor current_price fuel pf.2.2

theorem rhe_bounds (q : ℚ) : q - 1/2 ≤ (rhe q : ℚ) ∧ (rhe q : ℚ) ≤ q + 1/2 := by
  unfold rhe
  have h1 : (⌊q⌋ : ℚ) ≤ q := Int.floor_le q
  have h2 : q < (⌊q⌋ : ℚ) + 1 := Int.lt_floor_add_one q
  split_ifs with ha hb hc <;> constructor <;> push_cast <;> linarith

theorem rhe_mono {a b : ℚ} (h : a ≤ b) : rhe a ≤ rhe b := by
  unfold rhe
  have hf : ⌊a⌋ ≤ ⌊b⌋ := Int.floor_le_floor h
  rcases eq_or_lt_of_le hf with heq | hlt
  · rw [heq]
    have hab : a - (⌊b⌋ : ℚ) ≤ b - (⌊b⌋ : ℚ) := by linarith
    split_ifs <;> first | omega | (exfalso; linarith)
  · split_ifs <;> omega

theorem round8_mono {a b : ℚ} (h : a ≤ b) : round8 a ≤ round8 b := by
  unfold round8
  have hm := rhe_mono (a := a * 10^8) (b := b * 10^8) (by nlinarith)
  have h108 : (0:ℚ) < 10^8 := by norm_num
  exact (div_le_div_iff_of_pos_right h108).mpr (by exact_mod_cast hm)

theorem rhe_exact (z : ℤ) : rhe (z : ℚ) = z := by
  unfold rhe
  rw [Int.floor_intCast]
  simp

theorem rhe_floor_eq (q : ℚ) (z : ℤ) (hz : ⌊q⌋ = z) (h : q - z < 1/2) : rhe q = z := by
  unfold rhe
  rw [hz, if_pos h]

theorem rhe_floor_up (q : ℚ) (z : ℤ) (hz : ⌊q⌋ = z) (h : 1/2 < q - z) : rhe q = z + 1 := by
  unfold rhe
  rw [hz, if_neg (by linarith), if_pos h]

theorem round8_eval_lo (q : ℚ) (z : ℤ) (h1 : (z:ℚ) ≤ q * 10^8) (h2 : q * 10^8 < z + 1/2) :
    round8 q = (z : ℚ) / 10^8 := by
  unfold round8
  rw [rhe_floor_eq (q * 10^8) z (Int.floor_eq_iff.mpr ⟨h1, by linarith⟩) (by linarith)]

theorem round8_eval_hi (q : ℚ) (z : ℤ) (h1 : (z:ℚ) + 1/2 < q * 10^8) (h2 : q * 10^8 < z + 1) :
    round8 q = ((z : ℚ) + 1) / 10^8 := by
  unfold round8
  rw [rhe_floor_up (q * 10^8) z (Int.floor_eq_iff.mpr ⟨by linarith, h2⟩) (by linarith)]
  push_cast
  ring_nf

theorem calculate_new_anchor_some (c a : ℚ) :
    GridStrategy.calculate_new_anchor c (some a) = max a c := by
  show (if a < c then c else a) = max a c
  split_ifs with h
  · exact (max_eq_right h.le).symm
  · exact (max_eq_left (not_lt.mp h)).symm

theorem foldl_anchor_some (ps : List ℚ) (a : ℚ) :
    ps.foldl (fun old c => some (GridStrategy.calculate_new_anchor c old)) (some a) =
      some (ps.foldl max a) := by
  induction ps generalizing a with
  | nil => rfl
  | cons p ps ih => simp [List.foldl, calculate_new_anchor_some, ih]

theorem le_foldl_max (p : ℚ) (ps : List ℚ) : ∀ x ∈ p :: ps, x ≤ ps.foldl max p := by
  induction ps generalizing p with
  | nil =>
    intro x hx
    simp only [List.mem_singleton] at hx
    simp [hx]
  | cons q qs ih =>
    intro x hx
    simp only [List.foldl]
    rcases List.mem_cons.mp hx with rfl | hx'
    · exact le_trans (le_max_left x q) (ih (max x q) _ (List.mem_cons_self _ _))
    · rcases List.mem_cons.mp hx' with rfl | hx''
      · exact le_trans (le_max_right p x) (ih (max p x) _ (List.mem_cons_self _ _))
      · exact ih (max p q) x (List.mem_cons_of_mem _ hx'')

theorem foldl_max_mem (p : ℚ) (ps : List ℚ) : ps.foldl max p ∈ p :: ps := by
  induction ps generalizing p with
  | nil => simp
  | cons q qs ih =>
    simp only [List.foldl]
    rcases List.mem_cons.mp (ih (max p q)) with h | h
    · rw [h]
      rcases max_choice p q with hm | hm <;> rw [hm] <;> simp
    · exact List.mem_cons_of_mem _ (List.mem_cons_of_mem _ h)

/-- Claim C6: folding calculate_new_anchor over a nonempty price sequence
starting from an absent anchor yields the maximum of the sequence (the fold
result is an upper bound of, and a member of, the sequence), and every single
anchor update is monotone non-decreasing. -/
theorem c6_anchor_replay (p : ℚ) (ps : List ℚ) :
    replayAnchor (p :: ps) = some (ps.foldl max p) ∧
    (∀ x ∈ p :: ps, x ≤ ps.foldl max p) ∧
    ps.foldl max p ∈ p :: ps ∧
    (∀ c a : ℚ, a ≤ GridStrategy.calculate_new_anchor c (some a)) := by
  refine ⟨?_, le_foldl_max p ps, foldl_max_mem p ps, ?_⟩
  · show (p :: ps).foldl (fun old c => some (GridStrategy.calculate_new_anchor c old)) none =
      some (ps.foldl max p)
    rw [List.foldl_cons]
    exact foldl_anchor_some ps p
  · intro c a
    rw [calculate_new_anchor_some]
    exact le_max_left a c

/-- Claim C2 counterexample: with profit_mode CUSTOM (custom_profit_pct at its
default 0.01), the code still prices the exit one grid step above the buy:
get_sell_price 100 is 100.33, not the 101 the claim demands. -/
theorem c2_counterexample :
    GridStrategy.get_sell_price { profit_mode := "CUSTOM" } 100 = 10033/100 ∧
    GridStrategy.get_sell_price { profit_mode := "CUSTOM" } 100 ≠
      100 * (1 + ({ profit_mode := "CUSTOM" } : GridStrategy).custom_profit_pct) := by
  have h1 : GridStrategy.get_sell_price { profit_mode := "CUSTOM" } 100 = 10033/100 := by
    unfold GridStrategy.get_sell_price
    rw [round8_eval_lo _ 10033000000 (by norm_num) (by norm_num)]
    norm_num
  refine ⟨h1, ?_⟩
  rw [h1]
  norm_num

/-- Claim C2 (amended): the sell price of the exit order is
round8 (buy * (1 + grid_step_pct)) for every profit mode; profit_mode and
custom_profit_pct have no effect on it. -/
theorem c2_sell_price_margin (s : GridStrategy) (buy : ℚ) (m : String) (c : ℚ) :
    GridStrategy.get_sell_price { s with profit_mode := m, custom_profit_pct := c } buy =
      round8 (buy * (1 + s.grid_step_pct)) := rfl

/-- Claim C9 counterexample: with the default configuration and
buy_price 1e-9 > 0, rounding to 8 decimal places collapses the sell price to
0, which is not strictly greater than the buy price. -/
theorem c9_counterexample :
    GridStrategy.get_sell_price {} (1/10^9) = 0 ∧
    ¬ (1/10^9 < GridStrategy.get_sell_price {} (1/10^9)) := by
  have h1 : GridStrategy.get_sell_price {} (1/10^9) = 0 := by
    unfold GridStrategy.get_sell_price
    rw [round8_eval_lo _ 0 (by norm_num) (by norm_num)]
    norm_num
  refine ⟨h1, ?_⟩
  rw [h1]
  norm_num

/-- Claim C9 (amended): the 8-decimal rounded sell price strictly exceeds the
buy price whenever buy_price * grid_step_pct exceeds half of the rounding
quantum 1e-8 (in particular at every realistic price for any positive step). -/
theorem c9_sell_price_gt (s : GridStrategy) (buy : ℚ) (hpos : 0 < buy)
    (hstep : 1/(2 * 10^8) < buy * s.grid_step_pct) :
    buy < s.get_sell_price buy := by
  unfold GridStrategy.get_sell_price round8
  have hb := (rhe_bounds (buy * (1 + s.grid_step_pct) * 10^8)).1
  have h108 : (0:ℚ) < 10^8 := by norm_num
  rw [lt_div_iff₀ h108]
  have hstep' : (1:ℚ)/2 < buy * s.grid_step_pct * 10^8 := by
    calc (1:ℚ)/2 = 1/(2*10^8) * 10^8 := by norm_num
    _ < buy * s.grid_step_pct * 10^8 := by
        exact mul_lt_mul_of_pos_right hstep h108
  generalize hR : ((rhe (buy * (1 + s.grid_step_pct) * 10^8) : ℤ) : ℚ) = R at hb ⊢
  nlinarith [hb, hstep']

/-- Claim C9 witness: the amended bound applies at the default configuration
and buy_price 1. -/
theorem c9_witness :
    (0:ℚ) < 1 ∧
    1/(2 * 10^8) < 1 * ({} : GridStrategy).grid_step_pct ∧
    (1:ℚ) < GridStrategy.get_sell_price {} 1 :=
  ⟨by norm_num, by norm_num, c9_sell_price_gt {} 1 (by norm_num) (by norm_num)⟩

theorem checkMonthlyReset_frame (month : ℤ) (db : DB) :
    (checkMonthlyReset month db).markets = db.markets ∧
    (checkMonthlyReset month db).orders = db.orders ∧
    (checkMonthlyReset month db).fills = db.fills ∧
    (checkMonthlyReset month db).lots = db.lots ∧
    (checkMonthlyReset month db).anchors = db.anchors := by
  unfold checkMonthlyReset
  cases hpt : db.profit_tracker with
  | none => exact ⟨rfl, rfl, rfl, rfl, rfl⟩
  | some t =>
    dsimp only
    split_ifs <;> exact ⟨rfl, rfl, rfl, rfl, rfl⟩

theorem addProfit_frame (db : DB) (x : ℚ) :
    (addProfit db x).markets = db.markets ∧
    (addProfit db x).orders = db.orders ∧
    (addProfit db x).fills = db.fills ∧
    (addProfit db x).lots = db.lots ∧
    (addProfit db x).anchors = db.anchors := by
  unfold addProfit
  cases hpt : db.profit_tracker with
  | none => exact ⟨rfl, rfl, rfl, rfl, rfl⟩
  | some t => exact ⟨rfl, rfl, rfl, rfl, rfl⟩

theorem addProfit_some (db : DB) (t : ProfitTracker) (ht : db.profit_tracker = some t) (x : ℚ) :
    (addProfit db x).profit_tracker =
      some ⟨t.current_month_profit_usd + x, t.last_profit_reset_month⟩ := by
  unfold addProfit
  rw [ht]

/-- Claim C3 counterexample: when the adapter's cancel_order raises (the
cancel oracle returns false) for the single OPEN order, stop_and_cancel_all
still completes but the order remains OPEN in storage, contradicting the
claim that afterwards no Order in storage has status OPEN. -/
theorem c3_counterexample :
    ¬ (∀ o ∈ (stopAndCancelAll ⟨fun _ => none, fun _ => false⟩
        ⟨[⟨"BTC-USD", true⟩], [⟨"o1", "BTC-USD", "BUY", 100, 1, "OPEN"⟩], [], [], [],
          none⟩).1.orders, o.status ≠ "OPEN") := by
  intro h
  exact h ⟨"o1", "BTC-USD", "BUY", 100, 1, "OPEN"⟩ (by simp [stopAndCancelAll]) rfl

/-- Claim C3 (amended): after stop_and_cancel_all, every market is disabled,
an adapter cancel was attempted for exactly the previously OPEN orders, and
each such order is marked CANCELED precisely when its adapter cancel did not
raise; an order still OPEN afterwards is an original OPEN row whose adapter
cancel raised, and when no cancel raises no OPEN order remains. Fills, lots,
anchors and the profit tracker are untouched, the whole update being one
state transition (the source's single transaction). -/
theorem c3_emergency_stop (a : Adapter) (db : DB) :
    (∀ m ∈ (stopAndCancelAll a db).1.markets, m.enabled = false) ∧
    (stopAndCancelAll a db).2 =
      (db.orders.filter (fun o => o.status = "OPEN")).map (fun o => o.id) ∧
    (stopAndCancelAll a db).1.orders = db.orders.map (fun o =>
      if o.status = "OPEN" ∧ a.cancel o.id then { o with status := "CANCELED" } else o) ∧
    (∀ o ∈ (stopAndCancelAll a db).1.orders, o.status = "OPEN" →
      o ∈ db.orders ∧ a.cancel o.id = false) ∧
    ((∀ oid, a.cancel oid = true) →
      ∀ o ∈ (stopAndCancelAll a db).1.orders, o.status ≠ "OPEN") ∧
    (stopAndCancelAll a db).1.fills = db.fills ∧
    (stopAndCancelAll a db).1.lots = db.lots ∧
    (stopAndCancelAll a db).1.anchors = db.anchors ∧
    (stopAndCancelAll a db).1.profit_tracker = db.profit_tracker := by
  refine ⟨?_, rfl, rfl, ?_, ?_, rfl, rfl, rfl, rfl⟩
  · intro m hm
    obtain ⟨x, _, rfl⟩ := List.mem_map.mp hm
    rfl
  · intro o ho hopen
    obtain ⟨x, hx, rfl⟩ := List.mem_map.mp ho
    by_cases hc : x.status = "OPEN" ∧ a.cancel x.id
    · rw [if_pos hc] at hopen ⊢
      exact absurd hopen (by simp)
    · rw [if_neg hc] at hopen ⊢
      refine ⟨hx, ?_⟩
      cases hb : a.cancel x.id with
      | false => rfl
      | true => exact absurd ⟨hopen, hb⟩ hc
  · intro hall o ho
    obtain ⟨x, hx, rfl⟩ := List.mem_map.mp ho
    by_cases hc : x.status = "OPEN" ∧ a.cancel x.id
    · rw [if_pos hc]
      simp
    · rw [if_neg hc]
      intro hopen
      exact hc ⟨hopen, hall x.id⟩

/-- Claim C3 witness: with an adapter whose cancels all succeed, no order is
left OPEN. -/
theorem c3_witness :
    ((stopAndCancelAll ⟨fun _ => some "x", fun _ => true⟩
        ⟨[⟨"BTC-USD", true⟩], [⟨"o1", "BTC-USD", "BUY", 100, 1, "OPEN"⟩], [], [], [],
          none⟩).1.orders.all (fun o => !(o.status == "OPEN"))) = true := by
  have h := (c3_emergency_stop ⟨fun _ => some "x", fun _ => true⟩
    ⟨[⟨"BTC-USD", true⟩], [⟨"o1", "BTC-USD", "BUY", 100, 1, "OPEN"⟩], [], [], [],
      none⟩).2.2.2.2.1 (fun _ => rfl)
  rw [List.all_eq_true]
  intro o ho
  have := h o ho
  simp [this]

/-- Claim C4 counterexample: with the ticker at 0 and no profit tracker row,
process_market still creates the profit_tracker BotState row (the monthly
reset runs before the zero-price guard), contradicting the claim that no
BotState row is created or changed. -/
theorem c4_counterexample :
    (processMarket {} ⟨fun _ => none, fun _ => false⟩ 5
        ⟨[⟨"BTC-USD", true⟩], [], [], [], [], none⟩ [] "BTC-USD" 0 10 0).db.profit_tracker ≠
      (⟨[⟨"BTC-USD", true⟩], [], [], [], [], none⟩ : DB).profit_tracker := by
  norm_num [processMarket, checkMonthlyReset]
  exact Option.some_ne_none _

/-- Claim C4 (amended): when the ticker price is not positive, process_market
returns right after the monthly-reset step: no order is placed, no cancel is
attempted, the cache is untouched, and the only persistent-state write is the
profit_tracker upsert of check_monthly_reset; orders, fills, lots, anchors
and markets are unchanged. The model being a total function reflects the
catch-all handler: no exception escapes. -/
theorem c4_zero_price_guard (s : GridStrategy) (a : Adapter) (month : ℤ) (db : DB)
    (cache : List OrderRow) (market_id : String) (price : ℚ) (fuel n : ℕ)
    (hprice : price ≤ 0) :
    (processMarket s a month db cache market_id price fuel n).db.orders = db.orders ∧
    (processMarket s a month db cache market_id price fuel n).db.fills = db.fills ∧
    (processMarket s a month db cache market_id price fuel n).db.lots = db.lots ∧
    (processMarket s a month db cache market_id price fuel n).db.anchors = db.anchors ∧
    (processMarket s a month db cache market_id price fuel n).db.markets = db.markets ∧
    (processMarket s a month db cache market_id price fuel n).db.profit_tracker =
      (checkMonthlyReset month db).profit_tracker ∧
    (processMarket s a month db cache market_id price fuel n).placed = [] ∧
    (processMarket s a month db cache market_id price fuel n).cancelRequests = [] ∧
    (processMarket s a month db cache market_id price fuel n).canceledIds = [] ∧
    (processMarket s a month db cache market_id price fuel n).cache = cache := by
  have hf := checkMonthlyReset_frame month db
  simp only [processMarket]
  rw [if_pos hprice]
  exact ⟨hf.2.1, hf.2.2.1, hf.2.2.2.1, hf.2.2.2.2, hf.1, rfl, rfl, rfl, rfl, rfl⟩

/-- Claim C4 witness: the zero-price guard instantiated at a concrete state
with an existing tracker. -/
theorem c4_witness :
    (processMarket {} ⟨fun _ => none, fun _ => false⟩ 5
        ⟨[], [], [], [], [], some ⟨7, 5⟩⟩ [] "BTC-USD" 0 3 0).db.orders =
      (⟨[], [], [], [], [], some ⟨7, 5⟩⟩ : DB).orders ∧
    (processMarket {} ⟨fun _ => none, fun _ => false⟩ 5
        ⟨[], [], [], [], [], some ⟨7, 5⟩⟩ [] "BTC-USD" 0 3 0).db.fills =
      (⟨[], [], [], [], [], some ⟨7, 5⟩⟩ : DB).fills ∧
    (processMarket {} ⟨fun _ => none, fun _ => false⟩ 5
        ⟨[], [], [], [], [], some ⟨7, 5⟩⟩ [] "BTC-USD" 0 3 0).db.lots =
      (⟨[], [], [], [], [], some ⟨7, 5⟩⟩ : DB).lots ∧
    (processMarket {} ⟨fun _ => none, fun _ => false⟩ 5
        ⟨[], [], [], [], [], some ⟨7, 5⟩⟩ [] "BTC-USD" 0 3 0).db.anchors =
      (⟨[], [], [], [], [], some ⟨7, 5⟩⟩ : DB).anchors ∧
    (processMarket {} ⟨fun _ => none, fun _ => false⟩ 5
        ⟨[], [], [], [], [], some ⟨7, 5⟩⟩ [] "BTC-USD" 0 3 0).db.markets =
      (⟨[], [], [], [], [], some ⟨7, 5⟩⟩ : DB).markets ∧
    (processMarket {} ⟨fun _ => none, fun _ => false⟩ 5
        ⟨[], [], [], [], [], some ⟨7, 5⟩⟩ [] "BTC-USD" 0 3 0).db.profit_tracker =
      (checkMonthlyReset 5 ⟨[], [], [], [], [], some ⟨7, 5⟩⟩).profit_tracker ∧
    (processMarket {} ⟨fun _ => none, fun _ => false⟩ 5
        ⟨[], [], [], [], [], some ⟨7, 5⟩⟩ [] "BTC-USD" 0 3 0).placed = [] ∧
    (processMarket {} ⟨fun _ => none, fun _ => false⟩ 5
        ⟨[], [], [], [], [], some ⟨7, 5⟩⟩ [] "BTC-USD" 0 3 0).cancelRequests = [] ∧
    (processMarket {} ⟨fun _ => none, fun _ => false⟩ 5
        ⟨[], [], [], [], [], some ⟨7, 5⟩⟩ [] "BTC-USD" 0 3 0).canceledIds = [] ∧
    (processMarket {} ⟨fun _ => none, fun _ => false⟩ 5
        ⟨[], [], [], [], [], some ⟨7, 5⟩⟩ [] "BTC-USD" 0 3 0).cache = [] :=
  c4_zero_price_guard {} ⟨fun _ => none, fun _ => false⟩ 5
    ⟨[], [], [], [], [], some ⟨7, 5⟩⟩ [] "BTC-USD" 0 3 0 (by norm_num)

theorem find?_closeFirstLot (sid : String) (p : ℚ) (ls : List LotRow) (lot : LotRow)
    (h : ls.find? (fun l => l.sell_order_id = some sid) = some lot) :
    (closeFirstLot sid p ls).find? (fun l => l.sell_order_id = some sid) =
      some { lot with status := "CLOSED", realized_pnl := p } := by
  induction ls with
  | nil => simp at h
  | cons l ls ih =>
    by_cases hl : l.sell_order_id = some sid
    · rw [List.find?_cons_of_pos _ (by simpa using hl)] at h
      obtain rfl : l = lot := by injection h
      unfold closeFirstLot
      rw [if_pos hl]
      rw [List.find?_cons_of_pos _ (by simpa using hl)]
    · rw [List.find?_cons_of_neg _ (by simpa using hl)] at h
      unfold closeFirstLot
      rw [if_neg hl]
      rw [List.find?_cons_of_neg _ (by simpa using hl)]
      exact ih h

/-- Claim C7: a SELL fill whose order id matches some lot's sell_order_id
closes that lot with realized_pnl = fill price * fill size - buy_cost, and
add_profit increases the stored current monthly profit by exactly that
amount. -/
theorem c7_sell_fill_closes_lot (s : GridStrategy) (a : Adapter) (db : DB)
    (cache : List OrderRow) (n : ℕ) (f : FillRow) (lot : LotRow) (t : ProfitTracker)
    (hside : f.side = "SELL")
    (hfind : db.lots.find? (fun l => l.sell_order_id = some f.order_id) = some lot)
    (ht : db.profit_tracker = some t) :
    ((applyFill s a (db, cache, n) f).1.lots.find?
        (fun l => l.sell_order_id = some f.order_id) =
      some { lot with status := "CLOSED",
                      realized_pnl := f.price * f.size - lot.buy_cost }) ∧
    (applyFill s a (db, cache, n) f).1.profit_tracker =
      some ⟨t.current_month_profit_usd + (f.price * f.size - lot.buy_cost),
            t.last_profit_reset_month⟩ := by
  have happ : applyFill s a (db, cache, n) f =
      (addProfit { db with fills := db.fills ++ [f], orders := db.orders.map (fun o => if o.id = f.order_id then { o with status := "FILLED" } else o), lots := closeFirstLot f.order_id (f.price * f.size - lot.buy_cost) db.lots } (f.price * f.size - lot.buy_cost), cacheErase cache f.order_id, n) := by
    simp only [applyFill, hside, ite_true, ite_false]
    rw [if_neg (show ("SELL" : String) ≠ "BUY" by decide), hfind]
  rw [happ]
  constructor
  · rw [(addProfit_frame _ _).2.2.2.1]
    exact find?_closeFirstLot _ _ _ _ hfind
  · exact addProfit_some { db with fills := db.fills ++ [f], orders := db.orders.map (fun o => if o.id = f.order_id then { o with status := "FILLED" } else o), lots := closeFirstLot f.order_id (f.price * f.size - lot.buy_cost) db.lots } t ht (f.price * f.size - lot.buy_cost)

/-- Claim C7 witness: a concrete SELL fill at 110 closing a lot bought at
100, with the tracker increasing from 5 to 15. -/
theorem c7_witness :
    ((applyFill {} ⟨fun _ => some "sid", fun _ => true⟩
        (⟨[], [⟨"s1", "M", "SELL", 110, 1, "OPEN"⟩], [],
          [⟨"M", "b1", 100, 1, 100, some "s1", some 110, "OPEN", 0⟩], [],
          some ⟨5, 3⟩⟩, [], 0) ⟨"s1", "M", "SELL", 110, 1, 0⟩).1.lots.find?
        (fun l => l.sell_order_id = some ("s1" : String)) =
      some ⟨"M", "b1", 100, 1, 100, some "s1", some 110, "CLOSED", 110 * 1 - 100⟩) ∧
    (applyFill {} ⟨fun _ => some "sid", fun _ => true⟩
        (⟨[], [⟨"s1", "M", "SELL", 110, 1, "OPEN"⟩], [],
          [⟨"M", "b1", 100, 1, 100, some "s1", some 110, "OPEN", 0⟩], [],
          some ⟨5, 3⟩⟩, [], 0) ⟨"s1", "M", "SELL", 110, 1, 0⟩).1.profit_tracker =
      some ⟨5 + (110 * 1 - 100), 3⟩ :=
  c7_sell_fill_closes_lot {} ⟨fun _ => some "sid", fun _ => true⟩ _ [] 0
    ⟨"s1", "M", "SELL", 110, 1, 0⟩ ⟨"M", "b1", 100, 1, 100, some "s1", some 110, "OPEN", 0⟩
    ⟨5, 3⟩ rfl rfl rfl

/-- Claim C10: for a BUY fill whose exit SELL placement raises, the Fill row
is still appended and the buy Order is still marked FILLED, but the lots
table is unchanged, so no Lot references the filled buy order. -/
theorem c10_buy_fill_sell_exception (s : GridStrategy) (a : Adapter) (db : DB)
    (cache : List OrderRow) (n : ℕ) (f : FillRow)
    (hside : f.side = "BUY") (hplace : a.place n = none)
    (hnolot : ∀ l ∈ db.lots, l.buy_order_id ≠ f.order_id) :
    (applyFill s a (db, cache, n) f).1.fills = db.fills ++ [f] ∧
    (applyFill s a (db, cache, n) f).1.orders = db.orders.map
      (fun o => if o.id = f.order_id then { o with status := "FILLED" } else o) ∧
    (applyFill s a (db, cache, n) f).1.lots = db.lots ∧
    (∀ l ∈ (applyFill s a (db, cache, n) f).1.lots, l.buy_order_id ≠ f.order_id) := by
  have happ : applyFill s a (db, cache, n) f =
      ({ db with fills := db.fills ++ [f], orders := db.orders.map (fun o => if o.id = f.order_id then { o with status := "FILLED" } else o) }, cacheErase cache f.order_id, n + 1) := by
    simp only [applyFill, hside, ite_true, ite_false]
    rw [hplace]
  rw [happ]
  exact ⟨rfl, rfl, rfl, hnolot⟩

/-- Claim C10 witness: a concrete BUY fill whose exit placement raises; the
fill is recorded, the order FILLED, and no lot is created. -/
theorem c10_witness :
    (applyFill {} ⟨fun _ => none, fun _ => true⟩
        (⟨[], [⟨"b1", "M", "BUY", 100, 1, "OPEN"⟩], [], [], [], none⟩, [], 0)
        ⟨"b1", "M", "BUY", 100, 1, 0⟩).1.fills = [⟨"b1", "M", "BUY", 100, 1, 0⟩] ∧
    (applyFill {} ⟨fun _ => none, fun _ => true⟩
        (⟨[], [⟨"b1", "M", "BUY", 100, 1, "OPEN"⟩], [], [], [], none⟩, [], 0)
        ⟨"b1", "M", "BUY", 100, 1, 0⟩).1.orders =
      [⟨"b1", "M", "BUY", 100, 1, "OPEN"⟩].map
        (fun o => if o.id = "b1" then { o with status := "FILLED" } else o) ∧
    (applyFill {} ⟨fun _ => none, fun _ => true⟩
        (⟨[], [⟨"b1", "M", "BUY", 100, 1, "OPEN"⟩], [], [], [], none⟩, [], 0)
        ⟨"b1", "M", "BUY", 100, 1, 0⟩).1.lots = [] :=
  have h := c10_buy_fill_sell_exception {} ⟨fun _ => none, fun _ => true⟩
    ⟨[], [⟨"b1", "M", "BUY", 100, 1, "OPEN"⟩], [], [], [], none⟩ [] 0
    ⟨"b1", "M", "BUY", 100, 1, 0⟩ rfl rfl (fun l hl => absurd hl (List.not_mem_nil l))
  ⟨h.1, h.2.1, h.2.2.1⟩

theorem buyLevelsAux_eval (s : GridStrategy) (lb c lvl : ℚ) (acc : List ℚ) (fuel : ℕ)
    (h : fuel ≠ 0) :
    s.buyLevelsAux lb c fuel lvl acc =
      if lvl > lb then
        (if (if lvl < c then acc ++ [round8 lvl] else acc).length > s.max_orders
         then (if lvl < c then acc ++ [round8 lvl] else acc)
         else s.buyLevelsAux lb c (fuel - 1) (lvl * (1 - s.grid_step_pct))
           (if lvl < c then acc ++ [round8 lvl] else acc))
      else acc := by
  cases fuel with
  | zero => exact absurd rfl h
  | succ m => rfl

theorem buyLevelsAux_invariant (s : GridStrategy) (lb c : ℚ) (hlb : 0 ≤ lb)
    (hg0 : 0 ≤ s.grid_step_pct) :
    ∀ (fuel : ℕ) (lvl : ℚ) (acc : List ℚ),
      acc.length ≤ s.max_orders →
      acc.Chain' (· ≥ ·) →
      (∀ x ∈ acc, ∃ l0 : ℚ, lb < l0 ∧ l0 < c ∧ x = round8 l0) →
      (∀ x ∈ acc, round8 lvl ≤ x) →
      (s.buyLevelsAux lb c fuel lvl acc).length ≤ s.max_orders + 1 ∧
      (s.buyLevelsAux lb c fuel lvl acc).Chain' (· ≥ ·) ∧
      ∀ x ∈ s.buyLevelsAux lb c fuel lvl acc, ∃ l0 : ℚ, lb < l0 ∧ l0 < c ∧ x = round8 l0 := by
  intro fuel
  induction fuel with
  | zero =>
    intro lvl acc hlen hchain helem _
    exact ⟨Nat.le_succ_of_le hlen, hchain, helem⟩
  | succ m ih =>
    intro lvl acc hlen hchain helem hub
    by_cases hgt : lvl > lb
    · have hlvl0 : (0:ℚ) ≤ lvl := le_trans hlb hgt.le
      have hstep : lvl * (1 - s.grid_step_pct) ≤ lvl := by nlinarith
      have hub' : ∀ x ∈ acc, round8 (lvl * (1 - s.grid_step_pct)) ≤ x :=
        fun x hx => le_trans (round8_mono hstep) (hub x hx)
      by_cases hlt : lvl < c
      · have hchain' : (acc ++ [round8 lvl]).Chain' (· ≥ ·) := by
          rw [List.chain'_append]
          refine ⟨hchain, List.chain'_singleton _, ?_⟩
          intro x hx y hy
          simp only [List.head?_cons, Option.mem_def, Option.some.injEq] at hy
          subst hy
          obtain ⟨hne, rfl⟩ := List.mem_getLast?_eq_getLast hx
          exact hub _ (List.getLast_mem hne)
        have helem' : ∀ x ∈ acc ++ [round8 lvl], ∃ l0 : ℚ, lb < l0 ∧ l0 < c ∧ x = round8 l0 := by
          intro x hx
          rcases List.mem_append.mp hx with hx | hx
          · exact helem x hx
          · simp only [List.mem_singleton] at hx
            exact ⟨lvl, hgt, hlt, hx⟩
        have hub'' : ∀ x ∈ acc ++ [round8 lvl], round8 (lvl * (1 - s.grid_step_pct)) ≤ x := by
          intro x hx
          rcases List.mem_append.mp hx with hx | hx
          · exact hub' x hx
          · simp only [List.mem_singleton] at hx
            rw [hx]
            exact round8_mono hstep
        by_cases hmax : (acc ++ [round8 lvl]).length > s.max_orders
        · have heq : s.buyLevelsAux lb c (m+1) lvl acc = acc ++ [round8 lvl] := by
            rw [buyLevelsAux_eval _ _ _ _ _ _ (Nat.succ_ne_zero m), if_pos hgt, if_pos hlt,
              if_pos hmax]
          rw [heq]
          refine ⟨?_, hchain', helem'⟩
          simp only [List.length_append, List.length_singleton]
          omega
        · have heq : s.buyLevelsAux lb c (m+1) lvl acc =
              s.buyLevelsAux lb c m (lvl * (1 - s.grid_step_pct)) (acc ++ [round8 lvl]) := by
            rw [buyLevelsAux_eval _ _ _ _ _ _ (Nat.succ_ne_zero m), if_pos hgt, if_pos hlt,
              if_neg hmax, Nat.succ_sub_one]
          rw [heq]
          refine ih _ (acc ++ [round8 lvl]) ?_ hchain' helem' hub''
          simp only [List.length_append, List.length_singleton] at hmax ⊢
          omega
      · by_cases hmax : acc.length > s.max_orders
        · exact absurd hmax (by omega)
        · have heq : s.buyLevelsAux lb c (m+1) lvl acc =
              s.buyLevelsAux lb c m (lvl * (1 - s.grid_step_pct)) acc := by
            rw [buyLevelsAux_eval _ _ _ _ _ _ (Nat.succ_ne_zero m), if_pos hgt, if_neg hlt,
              if_neg hmax, Nat.succ_sub_one]
          rw [heq]
          exact ih _ acc hlen hchain helem hub'
    · have heq : s.buyLevelsAux lb c (m+1) lvl acc = acc := by
        rw [buyLevelsAux_eval _ _ _ _ _ _ (Nat.succ_ne_zero m), if_neg hgt]
      rw [heq]
      exact ⟨Nat.le_succ_of_le hlen, hchain, helem⟩

/-- Claim C5 (amended): for every configuration with 0 <= grid_step_pct,
staging_band_pct <= 1 and current price > 0, and for every fuel bound on the
level loop, calculate_buy_levels returns a finite list of at most
max_orders + 1 prices, the list is non-increasing, and every element is the
8-decimal rounding of an underlying level lying strictly between
current*(1 - staging_band_pct) and current. (The original strict bounds and
the max_orders cap fail: the safety break fires only after the list has
max_orders + 1 elements, and the 8-decimal rounding can merge adjacent
levels or push an element onto the boundary.) -/
theorem c5_buy_levels (s : GridStrategy) (anchor current : ℚ) (fuel : ℕ)
    (hg0 : 0 ≤ s.grid_step_pct) (hband : s.staging_band_pct ≤ 1) (hcur : 0 < current) :
    (s.calculate_buy_levels anchor current fuel).length ≤ s.max_orders + 1 ∧
    (s.calculate_buy_levels anchor current fuel).Chain' (· ≥ ·) ∧
    ∀ x ∈ s.calculate_buy_levels anchor current fuel,
      ∃ lvl : ℚ, current * (1 - s.staging_band_pct) < lvl ∧ lvl < current ∧ x = round8 lvl := by
  have hlb : 0 ≤ current * (1 - s.staging_band_pct) := mul_nonneg hcur.le (by linarith)
  exact buyLevelsAux_invariant s (current * (1 - s.staging_band_pct)) current hlb hg0 fuel
    ((s.gridTop anchor) * (1 - s.grid_step_pct)) [] (Nat.zero_le _) List.chain'_nil
    (by simp) (by simp)

/-- Claim C5 counterexample: with grid_step_pct = 0.1, staging_band_pct =
8/15, max_orders = 6 and anchor = current = 3e-8, the computed list is
[3e-8, 2e-8, 2e-8, 2e-8, 2e-8, 2e-8, 1e-8]: it has max_orders + 1 = 7
elements (the safety break fires only after the list is already too long),
it is not strictly decreasing (rounding merges adjacent levels), its first
element equals current rather than being strictly below it (2.7e-8 rounds up
to 3e-8), and its last element 1e-8 lies below current*(1-staging_band_pct)
= 1.4e-8 (1.43e-8 rounds down). -/
theorem c5_counterexample :
    GridStrategy.calculate_buy_levels
        { grid_step_pct := 1/10, staging_band_pct := 8/15, max_orders := 6 }
        (3/10^8) (3/10^8) 20 =
      [3/10^8, 2/10^8, 2/10^8, 2/10^8, 2/10^8, 2/10^8, 1/10^8] ∧
    ¬ ((GridStrategy.calculate_buy_levels
          { grid_step_pct := 1/10, staging_band_pct := 8/15, max_orders := 6 }
          (3/10^8) (3/10^8) 20).length ≤ 6 ∧
       (GridStrategy.calculate_buy_levels
          { grid_step_pct := 1/10, staging_band_pct := 8/15, max_orders := 6 }
          (3/10^8) (3/10^8) 20).Chain' (· > ·) ∧
       ∀ x ∈ GridStrategy.calculate_buy_levels
          { grid_step_pct := 1/10, staging_band_pct := 8/15, max_orders := 6 }
          (3/10^8) (3/10^8) 20,
         x < 3/10^8 ∧ 3/10^8 * (1 - 8/15) < x) ∧
    ¬ ((GridStrategy.calculate_buy_levels
          { grid_step_pct := 1/10, staging_band_pct := 8/15, max_orders := 6 }
          (3/10^8) (3/10^8) 20).Chain' (· > ·)) ∧
    ¬ (∀ x ∈ GridStrategy.calculate_buy_levels
          { grid_step_pct := 1/10, staging_band_pct := 8/15, max_orders := 6 }
          (3/10^8) (3/10^8) 20, x < 3/10^8) ∧
    ¬ (∀ x ∈ GridStrategy.calculate_buy_levels
          { grid_step_pct := 1/10, staging_band_pct := 8/15, max_orders := 6 }
          (3/10^8) (3/10^8) 20, 3/10^8 * (1 - 8/15) < x) := by
  have heval : GridStrategy.calculate_buy_levels
      { grid_step_pct := 1/10, staging_band_pct := 8/15, max_orders := 6 }
      (3/10^8) (3/10^8) 20 =
      [3/10^8, 2/10^8, 2/10^8, 2/10^8, 2/10^8, 2/10^8, 1/10^8] := by
    norm_num [GridStrategy.calculate_buy_levels, GridStrategy.gridTop, buyLevelsAux_eval,
      round8, rhe]
  refine ⟨heval, ?_, ?_, ?_, ?_⟩
  · rw [heval]
    rintro ⟨hlen, -, -⟩
    simp at hlen
  · rw [heval]
    intro hchain
    rw [List.chain'_cons, List.chain'_cons] at hchain
    have := hchain.2.1
    norm_num at this
  · rw [heval]
    intro h
    have := h (3/10^8) (List.mem_cons_self _ _)
    norm_num at this
  · rw [heval]
    intro h
    have h1 : (1:ℚ)/10^8 ∈
        [(3:ℚ)/10^8, 2/10^8, 2/10^8, 2/10^8, 2/10^8, 2/10^8, 1/10^8] := by simp
    have := h (1/10^8) h1
    norm_num at this

/-- Claim C5 witness: the amended statement instantiated at the default
configuration with anchor = current = 100 and fuel 20. -/
theorem c5_witness :
    ((0:ℚ) ≤ ({} : GridStrategy).grid_step_pct) ∧
    (({} : GridStrategy).staging_band_pct ≤ 1) ∧
    ((0:ℚ) < 100) ∧
    ((({} : GridStrategy).calculate_buy_levels 100 100 20).length ≤
        ({} : GridStrategy).max_orders + 1 ∧
      (({} : GridStrategy).calculate_buy_levels 100 100 20).Chain' (· ≥ ·) ∧
      ∀ x ∈ ({} : GridStrategy).calculate_buy_levels 100 100 20,
        ∃ lvl : ℚ, 100 * (1 - ({} : GridStrategy).staging_band_pct) < lvl ∧ lvl < 100 ∧
          x = round8 lvl) :=
  ⟨by norm_num, by norm_num, by norm_num,
    c5_buy_levels {} 100 100 20 (by norm_num) (by norm_num) (by norm_num)⟩

theorem computeSize_budget_split (s : GridStrategy) (profit price : ℚ)
    (hmode : s.sizing_mode = "BUDGET_SPLIT") :
    computeSize s profit price =
      max (round8 (s.get_effective_budget profit / ((max s.max_orders 1 : ℕ) : ℚ) / price))
        (1/100000) := by
  unfold computeSize
  rw [hmode]
  simp

/-- Claim C1: the effective budget used by sync_orders placement sizing is
budget + (profit - monthly_profit_target_usd) when profit_mode is
SMART_REINVEST and the current monthly profit is at least the target, and
budget otherwise; under BUDGET_SPLIT every order placed by sync_orders is an
OPEN BUY whose size is the per-level budget split
(effective_budget / max(max_orders,1)) / price (rounded to 8 decimals and
clamped below by the minimum size 1e-5, the sizing block's final step), and
when no placement raises, every uncovered level receives a placed order at
its price. The effective-budget function itself is modelled from the spec
because GridStrategy.get_effective_budget is absent from the sources. -/
theorem c1_budget_split_sizing (s : GridStrategy) (a : Adapter) (db : DB)
    (cache : List OrderRow) (market_id : String) (anchor_high current_price : ℚ)
    (fuel n : ℕ) (hmode : s.sizing_mode = "BUDGET_SPLIT") :
    (s.get_effective_budget (getCurrentMonthlyProfit db) =
      if s.profit_mode = "SMART_REINVEST" ∧
          getCurrentMonthlyProfit db ≥ s.monthly_profit_target_usd
      then s.budget + (getCurrentMonthlyProfit db - s.monthly_profit_target_usd)
      else s.budget) ∧
    (∀ o ∈ (syncOrders s a db cache market_id anchor_high current_price fuel n).placed,
      o.side = "BUY" ∧ o.status = "OPEN" ∧ o.market_id = market_id ∧
      o.size = max (round8 (s.get_effective_budget (getCurrentMonthlyProfit db) /
        ((max s.max_orders 1 : ℕ) : ℚ) / o.price)) (1/100000)) ∧
    ((∀ k, (a.place k).isSome) →
      ∀ ip ∈ syncToPlace s db market_id
          (s.calculate_buy_levels anchor_high current_price fuel) current_price,
        ∃ o ∈ (syncOrders s a db cache market_id anchor_high current_price fuel n).placed,
          o.price = ip.2) := by
  refine ⟨rfl, ?_, ?_⟩
  · intro o ho
    simp only [syncOrders, List.mem_filterMap] at ho
    obtain ⟨ki, _, hki⟩ := ho
    obtain ⟨oid, _, rfl⟩ := Option.map_eq_some'.mp hki
    exact ⟨rfl, rfl, rfl, computeSize_budget_split s _ _ hmode⟩
  · intro hplace ip hip
    obtain ⟨k, hk, hget⟩ := List.mem_iff_getElem.mp hip
    obtain ⟨oid, hoid⟩ := Option.isSome_iff_exists.mp (hplace (n + k))
    refine ⟨OrderRow.mk oid market_id "BUY" ip.2
      (computeSize s (getCurrentMonthlyProfit db) ip.2) "OPEN", ?_, rfl⟩
    simp only [syncOrders, List.mem_filterMap]
    refine ⟨(k, ip), ?_, ?_⟩
    · rw [List.mk_mem_enum_iff_getElem?]
      rw [List.getElem?_eq_getElem hk, hget]
    · rw [hoid]
      rfl

/-- Claim C1 witness: the sizing statement instantiated at the default
configuration, an empty state and an always-succeeding adapter. -/
theorem c1_witness :
    (({} : GridStrategy).get_effective_budget
        (getCurrentMonthlyProfit ⟨[], [], [], [], [], none⟩) =
      if ({} : GridStrategy).profit_mode = "SMART_REINVEST" ∧
          getCurrentMonthlyProfit ⟨[], [], [], [], [], none⟩ ≥
            ({} : GridStrategy).monthly_profit_target_usd
      then ({} : GridStrategy).budget +
        (getCurrentMonthlyProfit ⟨[], [], [], [], [], none⟩ -
          ({} : GridStrategy).monthly_profit_target_usd)
      else ({} : GridStrategy).budget) ∧
    (∀ o ∈ (syncOrders {} ⟨fun _ => some "p", fun _ => true⟩ ⟨[], [], [], [], [], none⟩
        [] "M" 100 100 20 0).placed,
      o.side = "BUY" ∧ o.status = "OPEN" ∧ o.market_id = "M" ∧
      o.size = max (round8 (({} : GridStrategy).get_effective_budget
        (getCurrentMonthlyProfit ⟨[], [], [], [], [], none⟩) /
        ((max ({} : GridStrategy).max_orders 1 : ℕ) : ℚ) / o.price)) (1/100000)) ∧
    ((∀ k, ((⟨fun _ => some "p", fun _ => true⟩ : Adapter).place k).isSome) →
      ∀ ip ∈ syncToPlace {} ⟨[], [], [], [], [], none⟩ "M"
          (({} : GridStrategy).calculate_buy_levels 100 100 20) 100,
        ∃ o ∈ (syncOrders {} ⟨fun _ => some "p", fun _ => true⟩ ⟨[], [], [], [], [], none⟩
            [] "M" 100 100 20 0).placed,
          o.price = ip.2) :=
  c1_budget_split_sizing {} ⟨fun _ => some "p", fun _ => true⟩ ⟨[], [], [], [], [], none⟩
    [] "M" 100 100 20 0 rfl

theorem syncOrders_placed_cache_indep (s : GridStrategy) (a : Adapter) (db : DB)
    (c c' : List OrderRow) (market_id : String) (anchor_high current_price : ℚ)
    (fuel n : ℕ) :
    (syncOrders s a db c market_id anchor_high current_price fuel n).placed =
      (syncOrders s a db c' market_id anchor_high current_price fuel n).placed := rfl

set_option maxHeartbeats 3200000 in
/-- Claim C8 counterexample: with grid_step_pct = 0.1, staging_band_pct =
0.5, max_orders = 10, ticker = anchor = 3e-8 unchanged between the two runs,
no fills in between and an adapter that never raises, the desired levels are
[3e-8, 2e-8, 2e-8, 2e-8, 2e-8, 2e-8] (8-decimal rounding merges five
adjacent levels). The first sync_orders run places six orders; in the second
run every order priced 2e-8 matches level index 1 (the first within
tolerance), so indices 2 to 5 stay uncovered and the second invocation
places four new orders, refuting idempotence. -/
theorem c8_counterexample :
    ¬ ((syncOrders { grid_step_pct := 1/10, staging_band_pct := 1/2, max_orders := 10 }
          ⟨fun k => some (["a","b","c","d","e","f","g","h","i","j"].getD k "z"), fun _ => true⟩
          (syncOrders { grid_step_pct := 1/10, staging_band_pct := 1/2, max_orders := 10 }
            ⟨fun k => some (["a","b","c","d","e","f","g","h","i","j"].getD k "z"), fun _ => true⟩
            ⟨[], [], [], [], [], none⟩ [] "M" (3/100000000) (3/100000000) 20 0).db
          (syncOrders { grid_step_pct := 1/10, staging_band_pct := 1/2, max_orders := 10 }
            ⟨fun k => some (["a","b","c","d","e","f","g","h","i","j"].getD k "z"), fun _ => true⟩
            ⟨[], [], [], [], [], none⟩ [] "M" (3/100000000) (3/100000000) 20 0).cache
          "M" (3/100000000) (3/100000000) 20
          (syncOrders { grid_step_pct := 1/10, staging_band_pct := 1/2, max_orders := 10 }
            ⟨fun k => some (["a","b","c","d","e","f","g","h","i","j"].getD k "z"), fun _ => true⟩
            ⟨[], [], [], [], [], none⟩ [] "M" (3/100000000) (3/100000000) 20 0).nextPlaceIdx).placed
        = [] ∧
       (syncOrders { grid_step_pct := 1/10, staging_band_pct := 1/2, max_orders := 10 }
          ⟨fun k => some (["a","b","c","d","e","f","g","h","i","j"].getD k "z"), fun _ => true⟩
          (syncOrders { grid_step_pct := 1/10, staging_band_pct := 1/2, max_orders := 10 }
            ⟨fun k => some (["a","b","c","d","e","f","g","h","i","j"].getD k "z"), fun _ => true⟩
            ⟨[], [], [], [], [], none⟩ [] "M" (3/100000000) (3/100000000) 20 0).db
          (syncOrders { grid_step_pct := 1/10, staging_band_pct := 1/2, max_orders := 10 }
            ⟨fun k => some (["a","b","c","d","e","f","g","h","i","j"].getD k "z"), fun _ => true⟩
            ⟨[], [], [], [], [], none⟩ [] "M" (3/100000000) (3/100000000) 20 0).cache
          "M" (3/100000000) (3/100000000) 20
          (syncOrders { grid_step_pct := 1/10, staging_band_pct := 1/2, max_orders := 10 }
            ⟨fun k => some (["a","b","c","d","e","f","g","h","i","j"].getD k "z"), fun _ => true⟩
            ⟨[], [], [], [], [], none⟩ [] "M" (3/100000000) (3/100000000) 20 0).nextPlaceIdx).cancelRequests
         = []) := by
  have hrange : List.range 6 = [0, 1, 2, 3, 4, 5] := rfl
  have hlevels : GridStrategy.calculate_buy_levels
      { grid_step_pct := 1/10, staging_band_pct := 1/2, max_orders := 10 }
      (3/100000000) (3/100000000) 20 =
      [3/100000000, 1/50000000, 1/50000000, 1/50000000, 1/50000000, 1/50000000] := by
    norm_num [GridStrategy.calculate_buy_levels, GridStrategy.gridTop, buyLevelsAux_eval,
      round8, rhe]
  have hround1 : round8 (10000000000/3) = 333333333333333333/100000000 := by
    norm_num [round8, rhe]
  have hround2 : round8 (5000000000 : ℚ) = 5000000000 := by
    norm_num [round8, rhe]
  have hr1db : (syncOrders { grid_step_pct := 1/10, staging_band_pct := 1/2, max_orders := 10 }
        ⟨fun k => some (["a","b","c","d","e","f","g","h","i","j"].getD k "z"), fun _ => true⟩
        ⟨[], [], [], [], [], none⟩ [] "M" (3/100000000) (3/100000000) 20 0).db =
      ⟨[], [⟨"a", "M", "BUY", 3/100000000, 333333333333333333/100000000, "OPEN"⟩,
            ⟨"b", "M", "BUY", 1/50000000, 5000000000, "OPEN"⟩,
            ⟨"c", "M", "BUY", 1/50000000, 5000000000, "OPEN"⟩,
            ⟨"d", "M", "BUY", 1/50000000, 5000000000, "OPEN"⟩,
            ⟨"e", "M", "BUY", 1/50000000, 5000000000, "OPEN"⟩,
            ⟨"f", "M", "BUY", 1/50000000, 5000000000, "OPEN"⟩], [], [], [], none⟩ := by
    norm_num [syncOrders, syncToPlace, syncCovered, openBuys, keepPrice, matchIndex,
      syncTol, computeSize, getCurrentMonthlyProfit, GridStrategy.get_effective_budget,
      GridStrategy.should_prune, hlevels, hrange, hround1, hround2, max_def,
      cacheInsert, cacheErase, List.findIdx?_cons, List.findIdx?_nil, List.enum,
      List.enumFrom, List.filterMap_cons, List.any_cons, List.any_nil,
      -List.any_eq_true, abs_of_pos, abs_of_nonneg, abs_sub_comm]
  have hr1n : (syncOrders { grid_step_pct := 1/10, staging_band_pct := 1/2, max_orders := 10 }
        ⟨fun k => some (["a","b","c","d","e","f","g","h","i","j"].getD k "z"), fun _ => true⟩
        ⟨[], [], [], [], [], none⟩ [] "M" (3/100000000) (3/100000000) 20 0).nextPlaceIdx = 6 := by
    norm_num [syncOrders, syncToPlace, syncCovered, openBuys, keepPrice, matchIndex,
      syncTol, getCurrentMonthlyProfit, GridStrategy.should_prune, hlevels, hrange,
      List.findIdx?_cons, List.findIdx?_nil]
  rintro ⟨hplaced, -⟩
  rw [hr1db, hr1n] at hplaced
  rw [syncOrders_placed_cache_indep { grid_step_pct := 1/10, staging_band_pct := 1/2, max_orders := 10 }
    ⟨fun k => some (["a","b","c","d","e","f","g","h","i","j"].getD k "z"), fun _ => true⟩
    ⟨[], [⟨"a", "M", "BUY", 3/100000000, 333333333333333333/100000000, "OPEN"⟩,
          ⟨"b", "M", "BUY", 1/50000000, 5000000000, "OPEN"⟩,
          ⟨"c", "M", "BUY", 1/50000000, 5000000000, "OPEN"⟩,
          ⟨"d", "M", "BUY", 1/50000000, 5000000000, "OPEN"⟩,
          ⟨"e", "M", "BUY", 1/50000000, 5000000000, "OPEN"⟩,
          ⟨"f", "M", "BUY", 1/50000000, 5000000000, "OPEN"⟩], [], [], [], none⟩
    _ [] "M" (3/100000000) (3/100000000) 20 6] at hplaced
  have hlen4 : (syncOrders { grid_step_pct := 1/10, staging_band_pct := 1/2, max_orders := 10 }
        ⟨fun k => some (["a","b","c","d","e","f","g","h","i","j"].getD k "z"), fun _ => true⟩
        ⟨[], [⟨"a", "M", "BUY", 3/100000000, 333333333333333333/100000000, "OPEN"⟩,
              ⟨"b", "M", "BUY", 1/50000000, 5000000000, "OPEN"⟩,
              ⟨"c", "M", "BUY", 1/50000000, 5000000000, "OPEN"⟩,
              ⟨"d", "M", "BUY", 1/50000000, 5000000000, "OPEN"⟩,
              ⟨"e", "M", "BUY", 1/50000000, 5000000000, "OPEN"⟩,
              ⟨"f", "M", "BUY", 1/50000000, 5000000000, "OPEN"⟩], [], [], [], none⟩
        [] "M" (3/100000000) (3/100000000) 20 6).placed.length = 4 := by
    norm_num [syncOrders, syncToPlace, syncCovered, openBuys, keepPrice, matchIndex,
      syncTol, computeSize, getCurrentMonthlyProfit, GridStrategy.get_effective_budget,
      GridStrategy.should_prune, hlevels, hrange, hround1, hround2, max_def,
      cacheInsert, cacheErase, List.findIdx?_cons, List.findIdx?_nil, List.enum,
      List.enumFrom, List.filterMap_cons, List.any_cons, List.any_nil,
      -List.any_eq_true, abs_of_pos, abs_of_nonneg, abs_sub_comm]
  rw [hplaced] at hlen4
  simp at hlen4

theorem syncTol_pos (s : GridStrategy) : 0 < syncTol s := by
  unfold syncTol
  split_ifs with h
  · norm_num
  · have hg : 0 < s.grid_step_pct := not_le.mp h
    nlinarith

theorem findIdx?_eq_first {α : Type _} (p : α → Bool) (l : List α) :
    ∀ (i : ℕ) (hi : i < l.length), p (l.get ⟨i, hi⟩) = true →
      (∀ (j : ℕ) (hj : j < l.length), j < i → p (l.get ⟨j, hj⟩) = false) →
      ∀ k, List.findIdx? p l k = some (k + i) := by
  induction l with
  | nil =>
    intro i hi
    exact absurd hi (by simp)
  | cons x xs ih =>
    intro i hi htrue hfalse k
    rw [List.findIdx?_cons]
    cases i with
    | zero =>
      rw [if_pos (show p x = true from htrue)]
      simp
    | succ m =>
      have h0 : p x = false := hfalse 0 (by simp) (Nat.succ_pos m)
      rw [if_neg (by simp [h0])]
      have h1 : m < xs.length := by simpa using hi
      have h2 : p (xs.get ⟨m, h1⟩) = true := htrue
      have h3 : ∀ (j : ℕ) (hj : j < xs.length), j < m → p (xs.get ⟨j, hj⟩) = false := by
        intro j hj hjm
        exact hfalse (j + 1) (by simpa using Nat.succ_lt_succ hj) (Nat.succ_lt_succ hjm)
      rw [ih m h1 h2 h3 (k + 1)]
      congr 1
      omega

theorem matchIndex_get (d : List ℚ) (tol : ℚ) (htol : 0 < tol) (i : ℕ) (hi : i < d.length)
    (hsep : ∀ (j : ℕ) (hj : j < d.length), j < i →
      tol ≤ |d.get ⟨i, hi⟩ - d.get ⟨j, hj⟩| / d.get ⟨j, hj⟩) :
    matchIndex d tol (d.get ⟨i, hi⟩) = some i := by
  unfold matchIndex
  have h1 : (fun x => decide (|d.get ⟨i, hi⟩ - x| / x < tol)) (d.get ⟨i, hi⟩) = true := by
    simp only [decide_eq_true_eq]
    rw [sub_self, abs_zero, zero_div]
    exact htol
  have h2 : ∀ (j : ℕ) (hj : j < d.length), j < i →
      (fun x => decide (|d.get ⟨i, hi⟩ - x| / x < tol)) (d.get ⟨j, hj⟩) = false := by
    intro j hj hji
    exact decide_eq_false (not_lt.mpr (hsep j hj hji))
  have := findIdx?_eq_first (fun x => decide (|d.get ⟨i, hi⟩ - x| / x < tol)) d i hi h1 h2 0
  simpa using this

theorem keepPrice_get (s : GridStrategy) (d : List ℚ) (current_price : ℚ) (i : ℕ)
    (hi : i < d.length)
    (hmatch : matchIndex d (syncTol s) (d.get ⟨i, hi⟩) = some i)
    (hband : s.should_prune (d.get ⟨i, hi⟩) current_price = false) :
    keepPrice s d current_price (d.get ⟨i, hi⟩) = true := by
  unfold keepPrice
  rw [hmatch, hband]
  rfl

theorem filter_map_mark (P K : OrderRow → Bool) (C : List String)
    (hP : ∀ o : OrderRow, P { o with status := "CANCELED" } = false) (l : List OrderRow)
    (hpt : ∀ o ∈ l, P o = true → ((o.id ∈ C) ↔ K o = false)) :
    (l.map (fun o => if o.id ∈ C then { o with status := "CANCELED" } else o)).filter P =
      (l.filter P).filter K := by
  induction l with
  | nil => rfl
  | cons o l ih =>
    have ih' := ih (fun o' ho' hPo' => hpt o' (List.mem_cons_of_mem _ ho') hPo')
    rw [List.map_cons]
    by_cases hc : o.id ∈ C
    · rw [if_pos hc, List.filter_cons_of_neg (by simp [hP o]), ih']
      by_cases hPo : P o = true
      · have hKo : K o = false := (hpt o (List.mem_cons_self _ _) hPo).mp hc
        rw [List.filter_cons_of_pos hPo, List.filter_cons_of_neg (by simp [hKo])]
      · rw [List.filter_cons_of_neg hPo]
    · rw [if_neg hc]
      by_cases hPo : P o = true
      · have hKo : K o = true := by
          cases hK : K o with
          | true => rfl
          | false => exact absurd ((hpt o (List.mem_cons_self _ _) hPo).mpr hK) hc
        rw [List.filter_cons_of_pos hPo, List.filter_cons_of_pos hPo,
          List.filter_cons_of_pos hKo, ih']
      · rw [List.filter_cons_of_neg hPo, List.filter_cons_of_neg hPo, ih']

theorem openBuys_after_sync (s : GridStrategy) (a : Adapter) (db : DB) (cache : List OrderRow)
    (market_id : String) (anchor_high current_price : ℚ) (fuel n : ℕ)
    (hnodup : (db.orders.map (fun o => o.id)).Nodup)
    (hcancel : ∀ oid, a.cancel oid = true) :
    openBuys (syncOrders s a db cache market_id anchor_high current_price fuel n).db market_id =
      ((openBuys db market_id).filter (fun o => keepPrice s
        (s.calculate_buy_levels anchor_high current_price fuel) current_price o.price)) ++
      (syncOrders s a db cache market_id anchor_high current_price fuel n).placed := by
  have horders : (syncOrders s a db cache market_id anchor_high current_price fuel n).db.orders =
      db.orders.map (fun o =>
        if o.id ∈ ((openBuys db market_id).filter (fun o' =>
            !(keepPrice s (s.calculate_buy_levels anchor_high current_price fuel)
              current_price o'.price) && a.cancel o'.id)).map (fun o' => o'.id)
        then { o with status := "CANCELED" } else o) ++
      (syncOrders s a db cache market_id anchor_high current_price fuel n).placed := rfl
  show ((syncOrders s a db cache market_id anchor_high current_price fuel n).db.orders).filter _ = _
  rw [horders, List.filter_append]
  congr 1
  · have hP' : ∀ o : OrderRow,
        (fun o => decide (o.market_id = market_id ∧ o.status = "OPEN" ∧ o.side = "BUY"))
          { o with status := "CANCELED" } = false := by
      intro o
      apply decide_eq_false
      rintro ⟨-, h2, -⟩
      exact (by decide : ¬ ("CANCELED" : String) = "OPEN") h2
    have hpt' : ∀ o ∈ db.orders,
        (fun o => decide (o.market_id = market_id ∧ o.status = "OPEN" ∧ o.side = "BUY")) o =
          true →
        ((o.id ∈ ((openBuys db market_id).filter (fun o' =>
            !(keepPrice s (s.calculate_buy_levels anchor_high current_price fuel)
              current_price o'.price) && a.cancel o'.id)).map (fun o' => o'.id)) ↔
          (fun o => keepPrice s (s.calculate_buy_levels anchor_high current_price fuel)
            current_price o.price) o = false) := by
      intro o ho hPo
      constructor
      · intro hoC
        obtain ⟨o', ho', hid⟩ := List.mem_map.mp hoC
        obtain ⟨ho'mem, hcond⟩ := List.mem_filter.mp ho'
        have ho'db : o' ∈ db.orders := (List.mem_filter.mp ho'mem).1
        have heq : o' = o := List.inj_on_of_nodup_map hnodup ho'db ho hid
        rw [← heq]
        rw [Bool.and_eq_true] at hcond
        have := hcond.1
        simpa using this
      · intro hkeep
        apply List.mem_map.mpr
        refine ⟨o, List.mem_filter.mpr ⟨List.mem_filter.mpr ⟨ho, hPo⟩, ?_⟩, rfl⟩
        have hkeep2 : keepPrice s (s.calculate_buy_levels anchor_high current_price fuel)
            current_price o.price = false := hkeep
        rw [hkeep2, hcancel o.id]
        rfl
    rw [filter_map_mark _ (fun o => keepPrice s
        (s.calculate_buy_levels anchor_high current_price fuel) current_price o.price)
        _ hP' _ hpt']
    rfl
  · apply List.filter_eq_self.mpr
    intro o hoP
    obtain ⟨kip, _, hk⟩ := List.mem_filterMap.mp hoP
    obtain ⟨oid, _, rfl⟩ := Option.map_eq_some'.mp hk
    exact decide_eq_true ⟨rfl, rfl, rfl⟩

/-- Claim C8 (amended): sync_orders is idempotent when the ticker price and
anchor are unchanged and no fills happen in between, provided the state and
configuration are non-degenerate: order ids are unique (invariant I1), no
adapter call raises, and the desired grid levels are all inside the staging
band, positive, and pairwise separated by at least the matching tolerance
(so that each level's first match is itself). The second invocation then
places no orders and attempts no cancels. Without the separation and band
provisos the claim fails: 8-decimal rounding can merge adjacent levels,
making the second run re-place the merged levels. -/
theorem c8_sync_idempotent (s : GridStrategy) (a : Adapter) (db : DB) (cache : List OrderRow)
    (market_id : String) (anchor_high current_price : ℚ) (fuel n : ℕ)
    (hnodup : (db.orders.map (fun o => o.id)).Nodup)
    (hplace : ∀ k, (a.place k).isSome)
    (hcancel : ∀ oid, a.cancel oid = true)
    (hpos : ∀ p ∈ s.calculate_buy_levels anchor_high current_price fuel, 0 < p)
    (hband : ∀ p ∈ s.calculate_buy_levels anchor_high current_price fuel,
      s.should_prune p current_price = false)
    (hsep : ∀ (i j : ℕ) (hi : i < (s.calculate_buy_levels anchor_high current_price fuel).length)
        (hj : j < (s.calculate_buy_levels anchor_high current_price fuel).length), j < i →
      syncTol s ≤ |(s.calculate_buy_levels anchor_high current_price fuel).get ⟨i, hi⟩ -
          (s.calculate_buy_levels anchor_high current_price fuel).get ⟨j, hj⟩| /
        (s.calculate_buy_levels anchor_high current_price fuel).get ⟨j, hj⟩) :
    (syncOrders s a (syncOrders s a db cache market_id anchor_high current_price fuel n).db
      (syncOrders s a db cache market_id anchor_high current_price fuel n).cache
      market_id anchor_high current_price fuel
      (syncOrders s a db cache market_id anchor_high current_price fuel n).nextPlaceIdx).placed
      = [] ∧
    (syncOrders s a (syncOrders s a db cache market_id anchor_high current_price fuel n).db
      (syncOrders s a db cache market_id anchor_high current_price fuel n).cache
      market_id anchor_high current_price fuel
      (syncOrders s a db cache market_id anchor_high current_price fuel n).nextPlaceIdx).cancelRequests
      = [] := by
  set d := s.calculate_buy_levels anchor_high current_price fuel with hd
  set r1 := syncOrders s a db cache market_id anchor_high current_price fuel n with hr1
  have hOB := openBuys_after_sync s a db cache market_id anchor_high current_price fuel n
    hnodup hcancel
  rw [← hd, ← hr1] at hOB
  have hplaceddef : r1.placed =
      (syncToPlace s db market_id d current_price).enum.filterMap (fun kip =>
        (a.place (n + kip.1)).map (fun oid =>
          OrderRow.mk oid market_id "BUY" kip.2.2
            (computeSize s (getCurrentMonthlyProfit db) kip.2.2) "OPEN")) := rfl
  have hkeep_level : ∀ (i : ℕ) (hi : i < d.length),
      keepPrice s d current_price (d.get ⟨i, hi⟩) = true := by
    intro i hi
    refine keepPrice_get s d current_price i hi ?_ (hband _ (List.get_mem d i hi))
    exact matchIndex_get d (syncTol s) (syncTol_pos s) i hi
      (fun j hj hji => hsep i j hi hj hji)
  have hkeepall : ∀ o ∈ openBuys r1.db market_id,
      keepPrice s d current_price o.price = true := by
    intro o ho
    rw [hOB] at ho
    rcases List.mem_append.mp ho with hl | hr
    · exact (List.mem_filter.mp hl).2
    · rw [hplaceddef] at hr
      obtain ⟨kip, hkip, hk⟩ := List.mem_filterMap.mp hr
      obtain ⟨oid, -, rfl⟩ := Option.map_eq_some'.mp hk
      have h2 : kip.2 ∈ syncToPlace s db market_id d current_price := by
        rw [List.mem_enum_iff_getElem?] at hkip
        obtain ⟨hb, hg⟩ := List.getElem?_eq_some_iff.mp hkip
        exact List.mem_iff_getElem.mpr ⟨kip.1, hb, hg⟩
      have h3 : kip.2 ∈ d.enum := (List.mem_filter.mp h2).1
      rw [List.mem_enum_iff_getElem?] at h3
      obtain ⟨hb, hg⟩ := List.getElem?_eq_some_iff.mp h3
      show keepPrice s d current_price kip.2.2 = true
      rw [← hg]
      exact hkeep_level kip.2.1 hb
  have hcov : ∀ (i : ℕ) (hi : i < d.length),
      i ∈ syncCovered s r1.db market_id d current_price := by
    intro i hi
    by_cases h1 : i ∈ syncCovered s db market_id d current_price
    · rcases List.mem_append.mp h1 with ho | hlots
      · obtain ⟨o, hof, hom⟩ := List.mem_filterMap.mp ho
        obtain ⟨hmem, hkeep⟩ := List.mem_filter.mp hof
        apply List.mem_append.mpr
        left
        apply List.mem_filterMap.mpr
        refine ⟨o, List.mem_filter.mpr ⟨?_, hkeep⟩, hom⟩
        rw [hOB]
        exact List.mem_append.mpr (Or.inl (List.mem_filter.mpr ⟨hmem, hkeep⟩))
      · apply List.mem_append.mpr
        right
        exact hlots
    · have htp : (i, d.get ⟨i, hi⟩) ∈ syncToPlace s db market_id d current_price := by
        apply List.mem_filter.mpr
        constructor
        · rw [List.mk_mem_enum_iff_getElem?, List.getElem?_eq_getElem hi]
          rfl
        · simpa using h1
      obtain ⟨k, hk, hget⟩ := List.mem_iff_getElem.mp htp
      obtain ⟨oid, hoid⟩ := Option.isSome_iff_exists.mp (hplace (n + k))
      have hoplaced : OrderRow.mk oid market_id "BUY" (d.get ⟨i, hi⟩)
          (computeSize s (getCurrentMonthlyProfit db) (d.get ⟨i, hi⟩)) "OPEN" ∈ r1.placed := by
        rw [hplaceddef]
        apply List.mem_filterMap.mpr
        refine ⟨(k, (i, d.get ⟨i, hi⟩)), ?_, ?_⟩
        · rw [List.mk_mem_enum_iff_getElem?, List.getElem?_eq_getElem hk, hget]
        · rw [hoid]
          rfl
      apply List.mem_append.mpr
      left
      apply List.mem_filterMap.mpr
      refine ⟨OrderRow.mk oid market_id "BUY" (d.get ⟨i, hi⟩)
        (computeSize s (getCurrentMonthlyProfit db) (d.get ⟨i, hi⟩)) "OPEN",
        List.mem_filter.mpr ⟨?_, ?_⟩, ?_⟩
      · rw [hOB]
        exact List.mem_append.mpr (Or.inr hoplaced)
      · exact hkeep_level i hi
      · exact matchIndex_get d (syncTol s) (syncTol_pos s) i hi
          (fun j hj hji => hsep i j hi hj hji)
  have htp2 : syncToPlace s r1.db market_id d current_price = [] := by
    apply List.filter_eq_nil_iff.mpr
    intro ip hip
    rw [List.mem_enum_iff_getElem?] at hip
    obtain ⟨hb, -⟩ := List.getElem?_eq_some_iff.mp hip
    simpa using hcov ip.1 hb
  constructor
  · have hp2 : (syncOrders s a r1.db r1.cache market_id anchor_high current_price fuel
        r1.nextPlaceIdx).placed =
        (syncToPlace s r1.db market_id d current_price).enum.filterMap (fun kip =>
          (a.place (r1.nextPlaceIdx + kip.1)).map (fun oid =>
            OrderRow.mk oid market_id "BUY" kip.2.2
              (computeSize s (getCurrentMonthlyProfit r1.db) kip.2.2) "OPEN")) := rfl
    rw [hp2, htp2]
    rfl
  · have hc2 : (syncOrders s a r1.db r1.cache market_id anchor_high current_price fuel
        r1.nextPlaceIdx).cancelRequests =
        ((openBuys r1.db market_id).filter (fun o =>
          !(keepPrice s d current_price o.price))).map (fun o => o.id) := rfl
    rw [hc2]
    rw [List.filter_eq_nil_iff.mpr (fun o ho => by simp [hkeepall o ho])]
    rfl

theorem c8_witness :
    (syncOrders { grid_step_pct := 1/100, staging_band_pct := 3/200 }
        ⟨fun _ => some "w", fun _ => true⟩
        (syncOrders { grid_step_pct := 1/100, staging_band_pct := 3/200 }
          ⟨fun _ => some "w", fun _ => true⟩
          ⟨[], [], [], [], [], none⟩ [] "M" 100 100 20 0).db
        (syncOrders { grid_step_pct := 1/100, staging_band_pct := 3/200 }
          ⟨fun _ => some "w", fun _ => true⟩
          ⟨[], [], [], [], [], none⟩ [] "M" 100 100 20 0).cache
        "M" 100 100 20
        (syncOrders { grid_step_pct := 1/100, staging_band_pct := 3/200 }
          ⟨fun _ => some "w", fun _ => true⟩
          ⟨[], [], [], [], [], none⟩ [] "M" 100 100 20 0).nextPlaceIdx).placed = [] ∧
    (syncOrders { grid_step_pct := 1/100, staging_band_pct := 3/200 }
        ⟨fun _ => some "w", fun _ => true⟩
        (syncOrders { grid_step_pct := 1/100, staging_band_pct := 3/200 }
          ⟨fun _ => some "w", fun _ => true⟩
          ⟨[], [], [], [], [], none⟩ [] "M" 100 100 20 0).db
        (syncOrders { grid_step_pct := 1/100, staging_band_pct := 3/200 }
          ⟨fun _ => some "w", fun _ => true⟩
          ⟨[], [], [], [], [], none⟩ [] "M" 100 100 20 0).cache
        "M" 100 100 20
        (syncOrders { grid_step_pct := 1/100, staging_band_pct := 3/200 }
          ⟨fun _ => some "w", fun _ => true⟩
          ⟨[], [], [], [], [], none⟩ [] "M" 100 100 20 0).nextPlaceIdx).cancelRequests = [] := by
  have hd : GridStrategy.calculate_buy_levels
      { grid_step_pct := 1/100, staging_band_pct := 3/200 } 100 100 20 = [99] := by
    norm_num [GridStrategy.calculate_buy_levels, GridStrategy.gridTop, buyLevelsAux_eval,
      round8, rhe]
  refine c8_sync_idempotent _ _ _ _ _ _ _ _ _ ?_ ?_ ?_ ?_ ?_ ?_
  · simp
  · intro k
    rfl
  · intro oid
    rfl
  · rw [hd]
    intro p hp
    rw [List.mem_singleton] at hp
    rw [hp]
    norm_num
  · rw [hd]
    intro p hp
    rw [List.mem_singleton] at hp
    rw [hp]
    norm_num [GridStrategy.should_prune]
  · intro i j hi hj hji
    exfalso
    rw [hd] at hi hj
    simp at hi hj
    omega
